import Mathlib

/-!
# HTTP handlers of the URL shortener (`internal/app/handlers/handler.go`)

A shallow embedding of the six handlers `GetURL`, `SaveURL`, `SaveURLJson`,
`SaveBatch`, `GetForUser`, `GetDBStatus` and of `getUserToken`.

* The repository (`storage.URLRepository`) is an interface in the source; here it
  is a record of state-passing operations over an arbitrary backend state.
* Every call on the repository and every call on the response writer is appended
  to a log by the primitive that performs it, so "called exactly once" and "writes
  no error response" are statements about these logs.
* `encoding/json` and the response writer belong to the Go standard library; the
  codec is a parameter and the writer is the log of the calls made on it
  (`http.Error` and `http.Redirect` are logged as single calls with their arguments).
* The `config` argument of the save and list handlers is never read by them and is
  left out.
* Go strings are byte strings; the only string operations used are `TrimPrefix` with
  the one-byte "/" and the test for length zero, which agree on characters and bytes.
-/

namespace Handlers

/-! ## Values shared with the standard library and the storage package -/

/-- Modelled from the spec: the failure taxonomy of the storage package (section 7 of the
spec); the package itself is not part of the handler file. `Other` stands for errors that do
not come from the repository (body reads, JSON). -/
inductive ErrKind where
  | NotFound
  | InvalidInput
  | StorageUnavailable
  | Other
  deriving DecidableEq, Repr

/-- A non-nil Go `error`: the handlers only ever call `Error()` on it. -/
structure GoError where
  kind : ErrKind
  message : String
  deriving DecidableEq, Repr

/-- The `Error()` method of a Go error. -/
def GoError.Error (e : GoError) : String := e.message

/-- A Go slice: `none` is the nil slice, `some xs` a non-nil slice with elements `xs`. -/
abbrev Slice (α : Type) := Option (List α)

/-- Go `len` on a slice: the nil slice has length zero. -/
def Slice.len {α : Type} : Slice α → Nat
  | none => 0
  | some xs => xs.length

/-- The handler-local type `apiItem` (JSON field `url`). -/
structure apiItem where
  FullURL : String
  deriving DecidableEq, Repr

/-- The handler-local type `apiResult` (JSON field `result`). -/
structure apiResult where
  ShortURL : String
  deriving DecidableEq, Repr

/-- Modelled from the spec: `storage.BatchItem`, a `{correlationID, originalURL}` pair; the
declaration lives in the storage package. -/
structure BatchItem where
  correlationID : String
  originalURL : String
  deriving DecidableEq, Repr

/-- Modelled from the spec: one element of the result of `Batch`, a
`{correlationID, shortIdentifier}` pair; the declaration lives in the storage package. -/
structure BatchResult where
  correlationID : String
  shortIdentifier : String
  deriving DecidableEq, Repr

/-- Modelled from the spec: one element of the result of `GetByUser`, carrying the short
identifier and the original URL; the declaration lives in the storage package. -/
structure UserURL where
  shortIdentifier : String
  originalURL : String
  deriving DecidableEq, Repr

/-- The interface `storage.URLRepository`: five operations, each returning its Go result
tuple together with the next backend state. -/
structure URLRepository (σ : Type) where
  Find : String → σ → (String × Option GoError) × σ
  Store : String → String → σ → (String × Option GoError) × σ
  Batch : Slice BatchItem → String → σ → (Slice BatchResult × Option GoError) × σ
  GetByUser : String → σ → (Slice UserURL × Option GoError) × σ
  PingDB : σ → Bool × σ

/-- The uses of `encoding/json` made by the handlers, one field per call site and type. -/
structure JSONCodec where
  /-- The call `json.NewDecoder(request.Body).Decode(&apiItem)` on a body stream. -/
  decodeItem : String → Option GoError → apiItem × Option GoError
  /-- The call `json.Unmarshal(body, &items)`. -/
  unmarshalItems : String → Slice BatchItem × Option GoError
  /-- The call `json.NewEncoder(&buf).Encode(apiRes)`: buffer contents and error. -/
  encodeResult : apiResult → String × Option GoError
  /-- The call `json.NewEncoder(&buf).Encode(resItems)`. -/
  encodeBatch : Slice BatchResult → String × Option GoError
  /-- The call `json.NewEncoder(&buf).Encode(items)`. -/
  encodeUser : Slice UserURL → String × Option GoError

/-! ## Requests, the response writer and the call logs -/

/-- The request body as a stream: the bytes it yields and the error that ends it
(`none` for a clean end of stream). -/
structure Body where
  data : String
  err : Option GoError
  deriving DecidableEq, Repr

/-- What the handlers read from `*http.Request`: `URL.Path`, the body, and the context value
stored under the cookie name when that value is a string (`none` otherwise). -/
structure Request where
  path : String
  body : Body
  ctxToken : Option String
  deriving DecidableEq, Repr

/-- One call on the repository. -/
inductive RepoCall where
  | Find (id : String)
  | Store (originalURL ownerToken : String)
  | Batch (items : Slice BatchItem) (ownerToken : String)
  | GetByUser (ownerToken : String)
  | PingDB
  deriving DecidableEq, Repr

/-- One call on the response writer, directly or through `net/http`. -/
inductive WEffect where
  /-- The call `writer.Header().Set(k, v)`. -/
  | headerSet (k v : String)
  /-- The call `writer.WriteHeader(code)`. -/
  | writeHeader (code : Nat)
  /-- The call `writer.Write(data)`. -/
  | write (data : String)
  /-- The call `http.Error(writer, msg, code)`. -/
  | error (msg : String) (code : Nat)
  /-- The call `http.Redirect(writer, request, url, code)`. -/
  | redirect (url : String) (code : Nat)
  deriving DecidableEq, Repr

/-- Everything a handler run can touch: the backend state, the log of repository calls, the
error the writer returns from `Write`, and the log of writer calls. -/
structure World (σ : Type) where
  repo : σ
  calls : List RepoCall
  writeErr : Option GoError
  effects : List WEffect

/-- A fresh run: nothing called yet. -/
def World.init {σ : Type} (s : σ) (writeErr : Option GoError) : World σ :=
  { repo := s, calls := [], writeErr := writeErr, effects := [] }

/-- A handler computation: `none` is a run-time panic. -/
abbrev Handler (σ α : Type) := StateT (World σ) Option α

/-! ## Constants of `net/http` -/

def StatusOK : Nat := 200
def StatusCreated : Nat := 201
def StatusNoContent : Nat := 204
def StatusTemporaryRedirect : Nat := 307
def StatusBadRequest : Nat := 400
def StatusInternalServerError : Nat := 500

/-- A client-error status (4xx). -/
def isClientError (code : Nat) : Bool := 400 ≤ code && code < 500

/-- A server-error status (5xx). -/
def isServerError (code : Nat) : Bool := 500 ≤ code && code < 600

/-- The status line of the response: the first call that sends a header decides it, and a
`Write` before any `WriteHeader` sends 200. Setting a header field sends nothing. -/
def responseStatus : List WEffect → Option Nat
  | [] => none
  | .headerSet _ _ :: rest => responseStatus rest
  | .writeHeader code :: _ => some code
  | .write _ :: _ => some StatusOK
  | .error _ code :: _ => some code
  | .redirect _ code :: _ => some code

/-- Whether the log holds a call of `http.Redirect`. -/
def hasRedirect : List WEffect → Bool
  | [] => false
  | .redirect _ _ :: _ => true
  | _ :: rest => hasRedirect rest

/-- Whether the log holds a call of `writer.Write`. -/
def hasWrite : List WEffect → Bool
  | [] => false
  | .write _ :: _ => true
  | _ :: rest => hasWrite rest

/-- Whether the log holds a call of `http.Error`. -/
def hasError : List WEffect → Bool
  | [] => false
  | .error _ _ :: _ => true
  | _ :: rest => hasError rest

/-- The three writer calls of a successful answer with status `code` and body `buf`. -/
def okEffects (code : Nat) (buf : String) : List WEffect :=
  [.headerSet "content-type" "application/json", .writeHeader code, .write buf]

/-- The writer calls after `Write` returned: an `http.Error` follows when it failed. -/
def afterWrite (writeErr : Option GoError) : List WEffect :=
  match writeErr with
  | some e => [.error e.Error StatusInternalServerError]
  | none => []

/-! ## Primitives -/

/-- Go `strings.TrimPrefix(s, pre)`: `s` without the leading `pre` when it has it, else `s`. -/
def TrimPrefix (s pre : String) : String :=
  if pre.data.isPrefixOf s.data then String.mk (s.data.drop pre.data.length) else s

/-- Go `io.ReadAll` / `ioutil.ReadAll` on the request body. -/
def ReadAll (b : Body) : String × Option GoError := (b.data, b.err)

section prims
variable {σ : Type}

/-- Append a repository call to the log and install the next backend state. -/
def World.called (w : World σ) (c : RepoCall) (s : σ) : World σ :=
  { w with repo := s, calls := w.calls ++ [c] }

/-- Append a writer call to the log. -/
def World.wrote (w : World σ) (e : WEffect) : World σ :=
  { w with effects := w.effects ++ [e] }

def callFind (repository : URLRepository σ) (id : String) :
    Handler σ (String × Option GoError) := fun w =>
  some ((repository.Find id w.repo).1, w.called (.Find id) (repository.Find id w.repo).2)

def callStore (repository : URLRepository σ) (originalURL ownerToken : String) :
    Handler σ (String × Option GoError) := fun w =>
  some ((repository.Store originalURL ownerToken w.repo).1,
    w.called (.Store originalURL ownerToken) (repository.Store originalURL ownerToken w.repo).2)

def callBatch (repository : URLRepository σ) (items : Slice BatchItem) (ownerToken : String) :
    Handler σ (Slice BatchResult × Option GoError) := fun w =>
  some ((repository.Batch items ownerToken w.repo).1,
    w.called (.Batch items ownerToken) (repository.Batch items ownerToken w.repo).2)

def callGetByUser (repository : URLRepository σ) (ownerToken : String) :
    Handler σ (Slice UserURL × Option GoError) := fun w =>
  some ((repository.GetByUser ownerToken w.repo).1,
    w.called (.GetByUser ownerToken) (repository.GetByUser ownerToken w.repo).2)

def callPingDB (repository : URLRepository σ) : Handler σ Bool := fun w =>
  some ((repository.PingDB w.repo).1, w.called .PingDB (repository.PingDB w.repo).2)

def httpError (msg : String) (code : Nat) : Handler σ Unit := fun w =>
  some ((), w.wrote (.error msg code))

def httpRedirect (url : String) (code : Nat) : Handler σ Unit := fun w =>
  some ((), w.wrote (.redirect url code))

def headerSet (k v : String) : Handler σ Unit := fun w =>
  some ((), w.wrote (.headerSet k v))

def writeHeader (code : Nat) : Handler σ Unit := fun w =>
  some ((), w.wrote (.writeHeader code))

def writerWrite (data : String) : Handler σ (Option GoError) := fun w =>
  some (w.writeErr, w.wrote (.write data))

/-- The function `getUserToken`: the type assertion `.(string)` panics when the context holds
no string under the cookie name. -/
def getUserToken (r : Request) : Handler σ String := fun w =>
  match r.ctxToken with
  | some t => some (t, w)
  | none => none

/-! ## The handlers -/

def GetURL (repository : URLRepository σ) (request : Request) : Handler σ Unit := do
  let urlID := TrimPrefix request.path "/"
  let (url, err) ← callFind repository urlID
  match err with
  | some e => httpError e.Error StatusBadRequest
  | none =>
    if url ≠ "" then
      httpRedirect url StatusTemporaryRedirect
    else
      httpError "not found :(" StatusBadRequest

def SaveURL (repository : URLRepository σ) (request : Request) : Handler σ Unit := do
  let (data, err) := ReadAll request.body
  match err with
  | some e => httpError e.Error StatusBadRequest
  | none =>
    let token ← getUserToken request
    let (res, err) ← callStore repository data token
    match err with
    | some e => httpError e.Error StatusInternalServerError
    | none =>
      headerSet "content-type" "application/json"
      writeHeader StatusCreated
      let _ ← writerWrite res
      pure ()

def SaveURLJson (json : JSONCodec) (repository : URLRepository σ) (request : Request) :
    Handler σ Unit := do
  let (apiItem, err) := json.decodeItem request.body.data request.body.err
  match err with
  | some e => httpError e.Error StatusInternalServerError
  | none =>
    let token ← getUserToken request
    let (res, err) ← callStore repository apiItem.FullURL token
    match err with
    | some e => httpError e.Error StatusInternalServerError
    | none =>
      let apiRes : apiResult := { ShortURL := res }
      let (buf, err) := json.encodeResult apiRes
      match err with
      | some e => httpError e.Error StatusInternalServerError
      | none =>
        headerSet "content-type" "application/json"
        writeHeader StatusCreated
        let err ← writerWrite buf
        match err with
        | some e => httpError e.Error StatusInternalServerError
        | none => pure ()

def SaveBatch (json : JSONCodec) (repository : URLRepository σ) (request : Request) :
    Handler σ Unit := do
  let (body, err) := ReadAll request.body
  match err with
  | some e => httpError e.Error StatusInternalServerError
  | none =>
    if body.utf8ByteSize = 0 then
      httpError "empty request" StatusBadRequest
    else
      let (items, err) := json.unmarshalItems body
      match err with
      | some e => httpError e.Error StatusInternalServerError
      | none =>
        let token ← getUserToken request
        let (resItems, err) ← callBatch repository items token
        match err with
        | some e => httpError e.Error StatusInternalServerError
        | none =>
          let (buf, err) := json.encodeBatch resItems
          match err with
          | some e => httpError e.Error StatusInternalServerError
          | none =>
            headerSet "content-type" "application/json"
            writeHeader StatusCreated
            let err ← writerWrite buf
            match err with
            | some e => httpError e.Error StatusInternalServerError
            | none => pure ()

def GetForUser (json : JSONCodec) (repository : URLRepository σ) (request : Request) :
    Handler σ Unit := do
  let ctxToken ← getUserToken request
  let (items, err) ← callGetByUser repository ctxToken
  match err with
  | some e => httpError e.Error StatusInternalServerError
  | none =>
    if items.len = 0 then
      httpError "" StatusNoContent
    else
      let (buf, err) := json.encodeUser items
      match err with
      | some e => httpError e.Error StatusInternalServerError
      | none =>
        headerSet "content-type" "application/json"
        writeHeader StatusOK
        let err ← writerWrite buf
        match err with
        | some e => httpError e.Error StatusInternalServerError
        | none => pure ()

def GetDBStatus (repository : URLRepository σ) (_request : Request) : Handler σ Unit := do
  let dbStatus ← callPingDB repository
  if dbStatus then
    writeHeader StatusOK
  else
    writeHeader StatusInternalServerError

end prims

/-! ## Concrete collaborators, for running the handlers on explicit inputs -/

/-- One stored entry `(id, originalURL, ownerToken)` of the in-memory backend. -/
structure URLEntry where
  id : String
  originalURL : String
  ownerToken : String
  deriving DecidableEq, Repr

/-- Modelled from the spec: `Find` of an in-memory backend; an unknown identifier gives the
empty result and no error (section 4.1). -/
def memFind (id : String) (s : List URLEntry) : (String × Option GoError) × List URLEntry :=
  match s.find? (fun e => e.id == id) with
  | some e => ((e.originalURL, none), s)
  | none => (("", none), s)

/-- Modelled from the spec: `Store` of an in-memory backend; an empty URL is `InvalidInput`,
the same `(originalURL, ownerToken)` pair gets its existing identifier, anything else a fresh
identifier (one more letter than there are entries). -/
def memStore (originalURL ownerToken : String) (s : List URLEntry) :
    (String × Option GoError) × List URLEntry :=
  if originalURL = "" then
    (("", some ⟨.InvalidInput, "empty url"⟩), s)
  else
    match s.find? (fun e => e.originalURL == originalURL && e.ownerToken == ownerToken) with
    | some e => ((e.id, none), s)
    | none =>
      let id := String.mk (List.replicate (s.length + 1) (Char.ofNat 97))
      ((id, none), s ++ [⟨id, originalURL, ownerToken⟩])

/-- The per-item loop of `memBatch`: store each item in order, keeping its correlation id. -/
def memBatchLoop (ownerToken : String) :
    List BatchItem → List URLEntry → (List BatchResult × Option GoError) × List URLEntry
  | [], s => (([], none), s)
  | item :: rest, s =>
    match memStore item.originalURL ownerToken s with
    | ((_, some e), s1) => (([], some e), s1)
    | ((id, none), s1) =>
      match memBatchLoop ownerToken rest s1 with
      | ((rs, err), s2) => ((⟨item.correlationID, id⟩ :: rs, err), s2)

/-- Modelled from the spec: `Batch` of an in-memory backend; an empty batch is `InvalidInput`
and stores nothing (section 4.1). -/
def memBatch (items : Slice BatchItem) (ownerToken : String) (s : List URLEntry) :
    (Slice BatchResult × Option GoError) × List URLEntry :=
  if items.len = 0 then
    ((none, some ⟨.InvalidInput, "empty batch"⟩), s)
  else
    match memBatchLoop ownerToken (items.getD []) s with
    | ((rs, none), s1) => ((some rs, none), s1)
    | ((_, some e), s1) => ((none, some e), s1)

/-- Modelled from the spec: `GetByUser` of an in-memory backend; a token without entries
gives the nil slice and no error (section 4.1). -/
def memGetByUser (ownerToken : String) (s : List URLEntry) :
    (Slice UserURL × Option GoError) × List URLEntry :=
  match s.filter (fun e => e.ownerToken == ownerToken) with
  | [] => ((none, none), s)
  | es => ((some (es.map (fun e => ⟨e.id, e.originalURL⟩)), none), s)

/-- Modelled from the spec: an in-memory backend of the repository contract; the storage
package is not part of the handler file. -/
def memRepository : URLRepository (List URLEntry) where
  Find := memFind
  Store := memStore
  Batch := memBatch
  GetByUser := memGetByUser
  PingDB := fun s => (true, s)

/-- The error of an unreachable backend. -/
def storageUnavailable : GoError := ⟨.StorageUnavailable, "storage unavailable"⟩

/-- Modelled from the spec: a backend that cannot be reached; every operation fails with
`StorageUnavailable` and the probe answers `false` (sections 4.1 and 7). -/
def brokenRepository : URLRepository Unit where
  Find := fun _ s => (("", some storageUnavailable), s)
  Store := fun _ _ s => (("", some storageUnavailable), s)
  Batch := fun _ _ s => ((none, some storageUnavailable), s)
  GetByUser := fun _ s => ((none, some storageUnavailable), s)
  PingDB := fun s => (false, s)

/-- Drop `pre` from the front of `cs`, or fail. -/
def expectChars (pre cs : List Char) : Option (List Char) :=
  if pre.isPrefixOf cs then some (cs.drop pre.length) else none

/-- Read the characters of a JSON string up to its closing quote (no escapes). -/
def readChars : List Char → Option (List Char × List Char)
  | [] => none
  | c :: rest =>
    if c = Char.ofNat 34 then some ([], rest)
    else (readChars rest).map (fun p => (c :: p.1, p.2))

/-- The error of the small codec on input it does not read. -/
def invalidCharacter : GoError := ⟨.Other, "invalid character"⟩

/-- Read one object with the single string field `url`. -/
def readItem (cs : List Char) : Option apiItem := do
  let r1 ← expectChars "\x7b\"url\":\"".data cs
  let (u, r2) ← readChars r1
  let _ ← expectChars "\x7d".data r2
  pure ⟨String.mk u⟩

/-- Read the elements of an array of `BatchItem` objects, after the opening bracket. -/
def readItems : Nat → List Char → Option (List BatchItem)
  | 0, _ => none
  | fuel + 1, cs => do
    let r1 ← expectChars "\x7b\"correlation_id\":\"".data cs
    let (c, r2) ← readChars r1
    let r3 ← expectChars ",\"original_url\":\"".data r2
    let (u, r4) ← readChars r3
    let r5 ← expectChars "\x7d".data r4
    match r5 with
    | [x] => if x = Char.ofNat 93 then some [⟨String.mk c, String.mk u⟩] else none
    | x :: r6 =>
      if x = Char.ofNat 44 then (readItems fuel r6).map (fun l => ⟨String.mk c, String.mk u⟩ :: l)
      else none
    | [] => none

/-- A small JSON codec for the handler types: strings without escapes, no white space. -/
def toyJSON : JSONCodec where
  decodeItem := fun data err =>
    match readItem data.data with
    | some item => (item, none)
    | none => (⟨""⟩, some (err.getD invalidCharacter))
  unmarshalItems := fun body =>
    if body = "null" then (none, none)
    else if body = "[]" then (some [], none)
    else
      match expectChars "[".data body.data with
      | none => (none, some invalidCharacter)
      | some r =>
        match readItems r.length r with
        | some l => (some l, none)
        | none => (none, some invalidCharacter)
  encodeResult := fun r => ("\x7b\"result\":\"" ++ r.ShortURL ++ "\"\x7d\n", none)
  encodeBatch := fun rs =>
    match rs with
    | none => ("null\n", none)
    | some l =>
      ("[" ++ ",".intercalate (l.map (fun r =>
        "\x7b\"correlation_id\":\"" ++ r.correlationID ++ "\",\"short_url\":\"" ++
          r.shortIdentifier ++ "\"\x7d")) ++ "]\n", none)
  encodeUser := fun us =>
    match us with
    | none => ("null\n", none)
    | some l =>
      ("[" ++ ",".intercalate (l.map (fun r =>
        "\x7b\"short_url\":\"" ++ r.shortIdentifier ++ "\",\"original_url\":\"" ++
          r.originalURL ++ "\"\x7d")) ++ "]\n", none)

/-! ## Shared lemmas -/

section lemmas
variable {σ : Type}

theorem TrimPrefix_slash_append (id : String) : TrimPrefix ("/" ++ id) "/" = id := by
  simp [TrimPrefix]

theorem TrimPrefix_slash_eq_empty (p : String) :
    TrimPrefix p "/" = "" ↔ p = "/" ∨ p = "" := by
  rcases p with ⟨cs⟩
  rcases cs with _ | ⟨c, rest⟩
  · simp [TrimPrefix]
  · by_cases hc : c = Char.ofNat 47
    · subst hc
      rcases rest with _ | ⟨d, more⟩
      · decide
      · simp [TrimPrefix, String.ext_iff]
    · have hc2 : ¬ (Char.ofNat 47 = c) := fun h => hc h.symm
      simp [TrimPrefix, String.ext_iff, hc, hc2]

/-- The whole behaviour of `GetURL` on any world: one `Find` on the trimmed path, then one
writer call chosen by the result. -/
theorem GetURL_run (repository : URLRepository σ) (request : Request) (w : World σ) :
    GetURL repository request w =
      some ((), (w.called (.Find (TrimPrefix request.path "/"))
          (repository.Find (TrimPrefix request.path "/") w.repo).2).wrote
        (match (repository.Find (TrimPrefix request.path "/") w.repo).1 with
          | (_, some e) => .error e.Error StatusBadRequest
          | (url, none) => if url ≠ "" then .redirect url StatusTemporaryRedirect
                            else .error "not found :(" StatusBadRequest)) := by
  unfold GetURL
  simp only [bind, StateT.bind, callFind]
  rcases h : (repository.Find (TrimPrefix request.path "/") w.repo).1 with ⟨url, _ | e⟩
  · by_cases hu : url = "" <;> simp [hu, httpError, httpRedirect]
  · simp [httpError]

theorem SaveURL_run (repository : URLRepository σ) (request : Request) (t : String)
    (w : World σ) (hread : request.body.err = none) (htok : request.ctxToken = some t) :
    SaveURL repository request w =
      some ((), { w with
        repo := (repository.Store request.body.data t w.repo).2
        calls := w.calls ++ [.Store request.body.data t]
        effects := w.effects ++
          (match (repository.Store request.body.data t w.repo).1 with
            | (_, some e) => [.error e.Error StatusInternalServerError]
            | (res, none) => okEffects StatusCreated res) }) := by
  unfold SaveURL
  simp only [ReadAll, hread, bind, StateT.bind, getUserToken, htok, callStore, Option.bind]
  rcases h : (repository.Store request.body.data t w.repo).1 with ⟨res, _ | e⟩
  · simp [headerSet, writeHeader, writerWrite, World.called, World.wrote, okEffects, pure,
      StateT.pure, StateT.bind, bind, Option.bind]
  · simp [httpError, World.called, World.wrote]

theorem SaveURLJson_run (json : JSONCodec) (repository : URLRepository σ) (request : Request)
    (u t : String) (w : World σ)
    (hdec : json.decodeItem request.body.data request.body.err = (⟨u⟩, none))
    (htok : request.ctxToken = some t) :
    SaveURLJson json repository request w =
      some ((), { w with
        repo := (repository.Store u t w.repo).2
        calls := w.calls ++ [.Store u t]
        effects := w.effects ++
          (match (repository.Store u t w.repo).1 with
            | (_, some e) => [.error e.Error StatusInternalServerError]
            | (res, none) =>
              match json.encodeResult ⟨res⟩ with
              | (_, some e) => [.error e.Error StatusInternalServerError]
              | (buf, none) => okEffects StatusCreated buf ++ afterWrite w.writeErr) }) := by
  unfold SaveURLJson
  simp only [hdec, bind, StateT.bind, getUserToken, htok, callStore, Option.bind]
  rcases h : (repository.Store u t w.repo).1 with ⟨res, _ | e⟩
  · rcases h2 : json.encodeResult ⟨res⟩ with ⟨buf, _ | e2⟩
    · rcases h3 : w.writeErr with _ | e3 <;>
        simp [h2, h3, headerSet, writeHeader, writerWrite, httpError, World.called,
          World.wrote, okEffects, afterWrite, pure, StateT.pure, StateT.bind, bind, Option.bind]
    · simp [h2, httpError, World.called, World.wrote]
  · simp [httpError, World.called, World.wrote]

theorem SaveBatch_run (json : JSONCodec) (repository : URLRepository σ) (request : Request)
    (items : Slice BatchItem) (t : String) (w : World σ)
    (hread : request.body.err = none) (hne : request.body.data.utf8ByteSize ≠ 0)
    (hdec : json.unmarshalItems request.body.data = (items, none))
    (htok : request.ctxToken = some t) :
    SaveBatch json repository request w =
      some ((), { w with
        repo := (repository.Batch items t w.repo).2
        calls := w.calls ++ [.Batch items t]
        effects := w.effects ++
          (match (repository.Batch items t w.repo).1 with
            | (_, some e) => [.error e.Error StatusInternalServerError]
            | (resItems, none) =>
              match json.encodeBatch resItems with
              | (_, some e) => [.error e.Error StatusInternalServerError]
              | (buf, none) => okEffects StatusCreated buf ++ afterWrite w.writeErr) }) := by
  unfold SaveBatch
  simp only [ReadAll, hread, hne, hdec, if_false, bind, StateT.bind, getUserToken, htok,
    callBatch, Option.bind]
  rcases h : (repository.Batch items t w.repo).1 with ⟨res, _ | e⟩
  · rcases h2 : json.encodeBatch res with ⟨buf, _ | e2⟩
    · rcases h3 : w.writeErr with _ | e3 <;>
        simp [h2, h3, headerSet, writeHeader, writerWrite, httpError, World.called,
          World.wrote, okEffects, afterWrite, pure, StateT.pure, StateT.bind, bind, Option.bind]
    · simp [h2, httpError, World.called, World.wrote]
  · simp [httpError, World.called, World.wrote]

theorem SaveBatch_empty_run (json : JSONCodec) (repository : URLRepository σ)
    (request : Request) (w : World σ)
    (hread : request.body.err = none) (hlen : request.body.data.utf8ByteSize = 0) :
    SaveBatch json repository request w =
      some ((), w.wrote (.error "empty request" StatusBadRequest)) := by
  unfold SaveBatch
  simp [ReadAll, hread, hlen, httpError]

theorem GetForUser_run (json : JSONCodec) (repository : URLRepository σ) (request : Request)
    (t : String) (w : World σ) (htok : request.ctxToken = some t) :
    GetForUser json repository request w =
      some ((), { w with
        repo := (repository.GetByUser t w.repo).2
        calls := w.calls ++ [.GetByUser t]
        effects := w.effects ++
          (match (repository.GetByUser t w.repo).1 with
            | (_, some e) => [.error e.Error StatusInternalServerError]
            | (items, none) =>
              if items.len = 0 then [.error "" StatusNoContent]
              else
                match json.encodeUser items with
                | (_, some e) => [.error e.Error StatusInternalServerError]
                | (buf, none) => okEffects StatusOK buf ++ afterWrite w.writeErr) }) := by
  unfold GetForUser
  simp only [bind, StateT.bind, getUserToken, htok, callGetByUser, Option.bind]
  rcases h : (repository.GetByUser t w.repo).1 with ⟨items, _ | e⟩
  · by_cases hlen : items.len = 0
    · simp [hlen, httpError, World.called, World.wrote]
    · rcases h2 : json.encodeUser items with ⟨buf, _ | e2⟩
      · rcases h3 : w.writeErr with _ | e3 <;>
          simp [hlen, h2, h3, headerSet, writeHeader, writerWrite, httpError, World.called,
            World.wrote, okEffects, afterWrite, pure, StateT.pure, StateT.bind, bind,
            Option.bind]
      · simp [hlen, h2, httpError, World.called, World.wrote]
  · simp [httpError, World.called, World.wrote]

theorem GetDBStatus_run (repository : URLRepository σ) (request : Request) (w : World σ) :
    GetDBStatus repository request w =
      some ((), (w.called .PingDB (repository.PingDB w.repo).2).wrote
        (.writeHeader (if (repository.PingDB w.repo).1 = true then StatusOK
          else StatusInternalServerError))) := by
  unfold GetDBStatus
  simp only [bind, StateT.bind, callPingDB, Option.bind]
  rcases h : (repository.PingDB w.repo).1 <;> simp [writeHeader]

theorem responseStatus_okEffects (code : Nat) (buf : String) (rest : List WEffect) :
    responseStatus (okEffects code buf ++ rest) = some code := by
  simp [okEffects, responseStatus]

end lemmas

/-! ## Claims -/

section claims
variable {σ : Type}

/-- C1. On a request whose path is "/" followed by `id`, `GetURL` calls `Find` exactly once,
with exactly `id`; if that call returns a non-empty `u` and no error, the only writer call is
a 307 redirect to exactly `u` (so no error response is written); hence if `id` is what
`Store u t` returned and `Find` gives `u` back for it, requesting "/" followed by that
identifier redirects to `u`. -/
theorem GetURL_redirects_to_found_url (repository : URLRepository σ) (request : Request)
    (id : String) (s : σ) (writeErr : Option GoError) (hpath : request.path = "/" ++ id) :
    ∃ w, GetURL repository request (World.init s writeErr) = some ((), w) ∧
      w.calls = [RepoCall.Find id] ∧
      (∀ u, (repository.Find id s).1 = (u, none) → u ≠ "" →
        w.effects = [WEffect.redirect u StatusTemporaryRedirect] ∧
        responseStatus w.effects = some 307 ∧ hasError w.effects = false) ∧
      (∀ u t s0, u ≠ "" → repository.Store u t s0 = ((id, none), s) →
        (repository.Find id s).1 = (u, none) →
        w.effects = [WEffect.redirect u StatusTemporaryRedirect]) := by
  refine ⟨_, GetURL_run repository request _, ?_, ?_, ?_⟩
  · simp [World.init, World.called, World.wrote, hpath, TrimPrefix_slash_append]
  · intro u hu hne
    simp [World.init, World.called, World.wrote, hpath, TrimPrefix_slash_append, hu, hne,
      responseStatus, hasError, StatusTemporaryRedirect]
  · intro u t s0 hne _ hu
    simp [World.init, World.called, World.wrote, hpath, TrimPrefix_slash_append, hu, hne]

/-- Witness of C1 on the in-memory backend: after storing one URL, its identifier is "a" and
the request for "/a" meets every hypothesis. -/
theorem GetURL_redirects_to_found_url_witness :
    (⟨"/a", ⟨"", none⟩, none⟩ : Request).path = "/" ++ "a" ∧
    memRepository.Store "http://x" "tok" [] = (("a", none), [⟨"a", "http://x", "tok"⟩]) ∧
    (memRepository.Find "a" [⟨"a", "http://x", "tok"⟩]).1 = ("http://x", none) ∧
    ∃ w, GetURL memRepository ⟨"/a", ⟨"", none⟩, none⟩
        (World.init [⟨"a", "http://x", "tok"⟩] none) = some ((), w) ∧
      w.calls = [RepoCall.Find "a"] ∧
      (∀ u, (memRepository.Find "a" [⟨"a", "http://x", "tok"⟩]).1 = (u, none) → u ≠ "" →
        w.effects = [WEffect.redirect u StatusTemporaryRedirect] ∧
        responseStatus w.effects = some 307 ∧ hasError w.effects = false) ∧
      (∀ u t s0, u ≠ "" →
        memRepository.Store u t s0 = (("a", none), [⟨"a", "http://x", "tok"⟩]) →
        (memRepository.Find "a" [⟨"a", "http://x", "tok"⟩]).1 = (u, none) →
        w.effects = [WEffect.redirect u StatusTemporaryRedirect]) :=
  ⟨by decide, by decide, by decide,
    GetURL_redirects_to_found_url memRepository ⟨"/a", ⟨"", none⟩, none⟩ "a"
      [⟨"a", "http://x", "tok"⟩] none (by decide)⟩

/-- C2. If the `Find` call made by `GetURL` returns the empty string and no error, the only
writer call is `http.Error` with message "not found :(" and status 400; no redirect is
issued. -/
theorem GetURL_not_found (repository : URLRepository σ) (request : Request) (s : σ)
    (writeErr : Option GoError)
    (hfind : (repository.Find (TrimPrefix request.path "/") s).1 = ("", none)) :
    ∃ w, GetURL repository request (World.init s writeErr) = some ((), w) ∧
      w.effects = [WEffect.error "not found :(" 400] ∧
      responseStatus w.effects = some 400 ∧
      hasRedirect w.effects = false := by
  refine ⟨_, GetURL_run repository request _, ?_, ?_, ?_⟩ <;>
    simp [World.init, World.called, World.wrote, hfind, responseStatus, hasRedirect,
      StatusBadRequest]

/-- Witness of C2: the empty in-memory backend does not know "zz". -/
theorem GetURL_not_found_witness :
    (memRepository.Find (TrimPrefix (⟨"/zz", ⟨"", none⟩, none⟩ : Request).path "/") []).1
      = ("", none) ∧
    ∃ w, GetURL memRepository ⟨"/zz", ⟨"", none⟩, none⟩ (World.init [] none) = some ((), w) ∧
      w.effects = [WEffect.error "not found :(" 400] ∧
      responseStatus w.effects = some 400 ∧
      hasRedirect w.effects = false :=
  ⟨by decide, GetURL_not_found memRepository ⟨"/zz", ⟨"", none⟩, none⟩ [] none (by decide)⟩

/-- C3, the code at the failing input. When `Find` fails with `StorageUnavailable`, `GetURL`
answers with status 400, which is not a server-error status, and it is the very status of
the not-found answer. -/
theorem GetURL_storage_failure_is_400 :
    (brokenRepository.Find "abc" ()).1 = ("", some storageUnavailable) ∧
    storageUnavailable.kind = ErrKind.StorageUnavailable ∧
    (∃ w, GetURL brokenRepository ⟨"/abc", ⟨"", none⟩, none⟩ (World.init () none)
        = some ((), w) ∧
      w.effects = [WEffect.error "storage unavailable" 400] ∧
      responseStatus w.effects = some 400 ∧ isServerError 400 = false) ∧
    (∃ w, GetURL memRepository ⟨"/abc", ⟨"", none⟩, none⟩ (World.init [] none)
        = some ((), w) ∧
      w.effects = [WEffect.error "not found :(" 400] ∧
      responseStatus w.effects = some 400) := by
  refine ⟨rfl, rfl, ⟨_, rfl, by decide, by decide, by decide⟩, ⟨_, rfl, by decide, by decide⟩⟩

/-- C4, counterexample. On the in-memory backend `Store` of an empty URL and `Batch` of an
empty item sequence fail with `InvalidInput`; `SaveURL` (empty body), `SaveURLJson` (the
object with an empty "url") and `SaveBatch` (body "[]") all answer with status 500, which is
a server-error status and not a client-error status. -/
theorem InvalidInput_is_answered_with_500 :
    (∃ e, (memRepository.Store "" "tok" []).1 = ("", some e) ∧ e.kind = ErrKind.InvalidInput) ∧
    (∃ e, (memRepository.Batch (some []) "tok" []).1 = (none, some e) ∧
      e.kind = ErrKind.InvalidInput) ∧
    toyJSON.decodeItem "\x7b\"url\":\"\"\x7d" none = (⟨""⟩, none) ∧
    toyJSON.unmarshalItems "[]" = (some [], none) ∧
    (∃ w, SaveURL memRepository ⟨"/", ⟨"", none⟩, some "tok"⟩ (World.init [] none)
        = some ((), w) ∧ w.calls = [RepoCall.Store "" "tok"] ∧
      responseStatus w.effects = some 500) ∧
    (∃ w, SaveURLJson toyJSON memRepository
        ⟨"/api/shorten", ⟨"\x7b\"url\":\"\"\x7d", none⟩, some "tok"⟩ (World.init [] none)
        = some ((), w) ∧ w.calls = [RepoCall.Store "" "tok"] ∧
      responseStatus w.effects = some 500) ∧
    (∃ w, SaveBatch toyJSON memRepository
        ⟨"/api/shorten/batch", ⟨"[]", none⟩, some "tok"⟩ (World.init [] none)
        = some ((), w) ∧ w.calls = [RepoCall.Batch (some []) "tok"] ∧
      responseStatus w.effects = some 500) ∧
    isClientError 500 = false ∧ isServerError 500 = true := by
  refine ⟨⟨_, rfl, rfl⟩, ⟨_, rfl, rfl⟩, by decide, by decide, ⟨_, rfl, by decide, by decide⟩,
    ⟨_, rfl, by decide, by decide⟩, ⟨_, rfl, by decide, by decide⟩, by decide, by decide⟩

/-- C4, amended. When the repository operation fails, with `InvalidInput` as with any other
error, `SaveURL`, `SaveURLJson` and `SaveBatch` answer with `http.Error` carrying the error
message and status 500: a server-error status, not a client-error status. -/
theorem repository_failure_is_answered_with_500 (json : JSONCodec)
    (repository : URLRepository σ) (request : Request) (t : String) (s : σ)
    (writeErr : Option GoError) (htok : request.ctxToken = some t) :
    (∀ res e, request.body.err = none →
      (repository.Store request.body.data t s).1 = (res, some e) →
      ∃ w, SaveURL repository request (World.init s writeErr) = some ((), w) ∧
        w.effects = [WEffect.error e.Error 500] ∧ responseStatus w.effects = some 500) ∧
    (∀ u res e, json.decodeItem request.body.data request.body.err = (⟨u⟩, none) →
      (repository.Store u t s).1 = (res, some e) →
      ∃ w, SaveURLJson json repository request (World.init s writeErr) = some ((), w) ∧
        w.effects = [WEffect.error e.Error 500] ∧ responseStatus w.effects = some 500) ∧
    (∀ items res e, request.body.err = none → request.body.data.utf8ByteSize ≠ 0 →
      json.unmarshalItems request.body.data = (items, none) →
      (repository.Batch items t s).1 = (res, some e) →
      ∃ w, SaveBatch json repository request (World.init s writeErr) = some ((), w) ∧
        w.effects = [WEffect.error e.Error 500] ∧ responseStatus w.effects = some 500) ∧
    isServerError 500 = true ∧ isClientError 500 = false := by
  refine ⟨?_, ?_, ?_, by decide, by decide⟩
  · intro res e hread hstore
    refine ⟨_, SaveURL_run repository request t _ hread htok, ?_, ?_⟩ <;>
      simp [World.init, hstore, responseStatus, StatusInternalServerError]
  · intro u res e hdec hstore
    refine ⟨_, SaveURLJson_run json repository request u t _ hdec htok, ?_, ?_⟩ <;>
      simp [World.init, hstore, responseStatus, StatusInternalServerError]
  · intro items res e hread hne hdec hbatch
    refine ⟨_, SaveBatch_run json repository request items t _ hread hne hdec htok, ?_, ?_⟩ <;>
      simp [World.init, hbatch, responseStatus, StatusInternalServerError]

/-- Witness of the amended C4: the three handlers on the in-memory backend, each on a
request whose repository operation fails with `InvalidInput`. -/
theorem repository_failure_is_answered_with_500_witness :
    (memRepository.Store "" "tok" []).1 = ("", some ⟨ErrKind.InvalidInput, "empty url"⟩) ∧
    (memRepository.Batch (some []) "tok" []).1
      = (none, some ⟨ErrKind.InvalidInput, "empty batch"⟩) ∧
    (∃ w, SaveURL memRepository ⟨"/", ⟨"", none⟩, some "tok"⟩ (World.init [] none)
        = some ((), w) ∧
      w.effects = [WEffect.error "empty url" 500] ∧ responseStatus w.effects = some 500) ∧
    (∃ w, SaveURLJson toyJSON memRepository
        ⟨"/api/shorten", ⟨"\x7b\"url\":\"\"\x7d", none⟩, some "tok"⟩ (World.init [] none)
        = some ((), w) ∧
      w.effects = [WEffect.error "empty url" 500] ∧ responseStatus w.effects = some 500) ∧
    (∃ w, SaveBatch toyJSON memRepository
        ⟨"/api/shorten/batch", ⟨"[]", none⟩, some "tok"⟩ (World.init [] none)
        = some ((), w) ∧
      w.effects = [WEffect.error "empty batch" 500] ∧ responseStatus w.effects = some 500) :=
  ⟨by decide, by decide,
    (repository_failure_is_answered_with_500 toyJSON memRepository
      ⟨"/", ⟨"", none⟩, some "tok"⟩ "tok" [] none rfl).1 ""
      ⟨ErrKind.InvalidInput, "empty url"⟩ rfl (by decide),
    (repository_failure_is_answered_with_500 toyJSON memRepository
      ⟨"/api/shorten", ⟨"\x7b\"url\":\"\"\x7d", none⟩, some "tok"⟩ "tok" [] none rfl).2.1 "" ""
      ⟨ErrKind.InvalidInput, "empty url"⟩ (by decide) (by decide),
    (repository_failure_is_answered_with_500 toyJSON memRepository
      ⟨"/api/shorten/batch", ⟨"[]", none⟩, some "tok"⟩ "tok" [] none rfl).2.2.1 (some []) none
      ⟨ErrKind.InvalidInput, "empty batch"⟩ rfl (by decide) (by decide) (by decide)⟩

/-- C5. With a raw body whose bytes are `u` and a JSON body that decodes to the object with
"url" equal to `u`, both under owner token `t`, `SaveURL` and `SaveURLJson` each call `Store`
exactly once, with `(u, t)`, on the backend state they started from, and both leave the
backend in the state that this `Store` call produced. When `Store` returns `res` and no error
both answer 201:
`SaveURL` writes exactly `res`, `SaveURLJson` writes the JSON encoding of the object whose
"result" is `res`. When `Store` fails both answer 500 through `http.Error` and write no
result. -/
theorem SaveURL_and_SaveURLJson_same_Store (json : JSONCodec) (repository : URLRepository σ)
    (reqRaw reqJson : Request) (u t : String) (s : σ) (writeErr : Option GoError)
    (hRaw : reqRaw.body = ⟨u, none⟩) (hRawTok : reqRaw.ctxToken = some t)
    (hJson : json.decodeItem reqJson.body.data reqJson.body.err = (⟨u⟩, none))
    (hJsonTok : reqJson.ctxToken = some t) :
    ∃ w1 w2, SaveURL repository reqRaw (World.init s writeErr) = some ((), w1) ∧
      SaveURLJson json repository reqJson (World.init s writeErr) = some ((), w2) ∧
      w1.calls = [RepoCall.Store u t] ∧ w2.calls = [RepoCall.Store u t] ∧
      w1.repo = (repository.Store u t s).2 ∧ w2.repo = (repository.Store u t s).2 ∧
      (∀ res, (repository.Store u t s).1 = (res, none) →
        w1.effects = okEffects 201 res ∧ responseStatus w1.effects = some 201 ∧
        ∀ js, json.encodeResult ⟨res⟩ = (js, none) →
          w2.effects = okEffects 201 js ++ afterWrite writeErr ∧
          responseStatus w2.effects = some 201) ∧
      (∀ res e, (repository.Store u t s).1 = (res, some e) →
        w1.effects = [WEffect.error e.Error 500] ∧ w2.effects = [WEffect.error e.Error 500] ∧
        responseStatus w1.effects = some 500 ∧ responseStatus w2.effects = some 500 ∧
        hasWrite w1.effects = false ∧ hasWrite w2.effects = false) := by
  have hread : reqRaw.body.err = none := by rw [hRaw]
  have hdata : reqRaw.body.data = u := by rw [hRaw]
  refine ⟨_, _, SaveURL_run repository reqRaw t _ hread hRawTok,
    SaveURLJson_run json repository reqJson u t _ hJson hJsonTok, ?_, ?_, ?_, ?_, ?_, ?_⟩
  · simp [World.init, hdata]
  · simp [World.init]
  · simp [World.init, hdata]
  · simp [World.init]
  · intro res hres
    refine ⟨?_, ?_, ?_⟩
    · simp [World.init, hdata, hres, StatusCreated]
    · simp [World.init, hdata, hres, StatusCreated, okEffects, responseStatus]
    · intro js hjs
      refine ⟨by simp [World.init, hres, hjs, StatusCreated], ?_⟩
      simp only [World.init, hres, hjs, List.nil_append]
      exact responseStatus_okEffects _ _ _
  · intro res e hres
    simp [World.init, hdata, hres, StatusInternalServerError, responseStatus, hasWrite]

/-- Witness of C5: the URL "http://x" sent raw and as a JSON object to the in-memory
backend; both runs call `Store "http://x" "tok"`, leave the backend holding the new entry,
and answer 201 with the identifier "a". -/
theorem SaveURL_and_SaveURLJson_same_Store_witness :
    toyJSON.decodeItem "\x7b\"url\":\"http://x\"\x7d" none = (⟨"http://x"⟩, none) ∧
    (memRepository.Store "http://x" "tok" []).1 = ("a", none) ∧
    toyJSON.encodeResult ⟨"a"⟩ = ("\x7b\"result\":\"a\"\x7d\n", none) ∧
    ∃ w1 w2,
      SaveURL memRepository ⟨"/", ⟨"http://x", none⟩, some "tok"⟩ (World.init [] none)
        = some ((), w1) ∧
      SaveURLJson toyJSON memRepository
        ⟨"/api/shorten", ⟨"\x7b\"url\":\"http://x\"\x7d", none⟩, some "tok"⟩
        (World.init [] none) = some ((), w2) ∧
      w1.calls = [RepoCall.Store "http://x" "tok"] ∧
      w2.calls = [RepoCall.Store "http://x" "tok"] ∧
      w1.repo = [⟨"a", "http://x", "tok"⟩] ∧ w2.repo = [⟨"a", "http://x", "tok"⟩] ∧
      w1.effects = okEffects 201 "a" ∧
      w2.effects = okEffects 201 "\x7b\"result\":\"a\"\x7d\n" ++ afterWrite none :=
  ⟨by decide, by decide, by decide,
    match SaveURL_and_SaveURLJson_same_Store toyJSON memRepository
      ⟨"/", ⟨"http://x", none⟩, some "tok"⟩
      ⟨"/api/shorten", ⟨"\x7b\"url\":\"http://x\"\x7d", none⟩, some "tok"⟩
      "http://x" "tok" [] none rfl rfl (by decide) rfl with
    | ⟨w1, w2, h1, h2, hc1, hc2, hr1, hr2, hok, _⟩ =>
      ⟨w1, w2, h1, h2, hc1, hc2, hr1.trans (by decide), hr2.trans (by decide),
        (hok "a" (by decide)).1,
        ((hok "a" (by decide)).2.2 "\x7b\"result\":\"a\"\x7d\n" (by decide)).1⟩⟩

/-- C6. On a non-empty body that decodes to `items`, `SaveBatch` calls `Batch` exactly once,
with `items` as decoded and the owner token of the request, on the backend state it started
from, and leaves the backend in the state that this `Batch` call produced. When `Batch`
returns `results` and no error, the answer is 201 and the bytes written are the JSON encoding
of exactly `results`. -/
theorem SaveBatch_passes_items_and_results (json : JSONCodec) (repository : URLRepository σ)
    (request : Request) (items : Slice BatchItem) (t : String) (s : σ)
    (writeErr : Option GoError)
    (hread : request.body.err = none) (hne : request.body.data.utf8ByteSize ≠ 0)
    (hdec : json.unmarshalItems request.body.data = (items, none))
    (htok : request.ctxToken = some t) :
    ∃ w, SaveBatch json repository request (World.init s writeErr) = some ((), w) ∧
      w.calls = [RepoCall.Batch items t] ∧
      w.repo = (repository.Batch items t s).2 ∧
      (∀ results, (repository.Batch items t s).1 = (results, none) →
        ∀ buf, json.encodeBatch results = (buf, none) →
          w.effects = okEffects 201 buf ++ afterWrite writeErr ∧
          responseStatus w.effects = some 201) := by
  refine ⟨_, SaveBatch_run json repository request items t _ hread hne hdec htok, ?_, ?_, ?_⟩
  · simp [World.init]
  · simp [World.init]
  · intro results hres buf hbuf
    refine ⟨by simp [World.init, hres, hbuf, StatusCreated], ?_⟩
    simp only [World.init, hres, hbuf, List.nil_append]
    exact responseStatus_okEffects _ _ _

/-- Witness of C6: the two-item batch of the spec, `a` for "http://x" and `b` for "http://y",
on the in-memory backend; the backend ends up holding both entries and the result pairs
`a` and `b` with their identifiers in that order. -/
theorem SaveBatch_passes_items_and_results_witness :
    toyJSON.unmarshalItems
      ("[\x7b\"correlation_id\":\"a\",\"original_url\":\"http://x\"\x7d," ++
        "\x7b\"correlation_id\":\"b\",\"original_url\":\"http://y\"\x7d]")
      = (some [⟨"a", "http://x"⟩, ⟨"b", "http://y"⟩], none) ∧
    (memRepository.Batch (some [⟨"a", "http://x"⟩, ⟨"b", "http://y"⟩]) "tok" []).1
      = (some [⟨"a", "a"⟩, ⟨"b", "aa"⟩], none) ∧
    ∃ w, SaveBatch toyJSON memRepository
        ⟨"/api/shorten/batch",
          ⟨"[\x7b\"correlation_id\":\"a\",\"original_url\":\"http://x\"\x7d," ++
            "\x7b\"correlation_id\":\"b\",\"original_url\":\"http://y\"\x7d]", none⟩,
          some "tok"⟩ (World.init [] none) = some ((), w) ∧
      w.calls = [RepoCall.Batch (some [⟨"a", "http://x"⟩, ⟨"b", "http://y"⟩]) "tok"] ∧
      w.repo = [⟨"a", "http://x", "tok"⟩, ⟨"aa", "http://y", "tok"⟩] ∧
      w.effects = okEffects 201
        ("[\x7b\"correlation_id\":\"a\",\"short_url\":\"a\"\x7d," ++
          "\x7b\"correlation_id\":\"b\",\"short_url\":\"aa\"\x7d]\n") ++ afterWrite none :=
  ⟨by decide, by decide,
    match SaveBatch_passes_items_and_results toyJSON memRepository
      ⟨"/api/shorten/batch",
        ⟨"[\x7b\"correlation_id\":\"a\",\"original_url\":\"http://x\"\x7d," ++
          "\x7b\"correlation_id\":\"b\",\"original_url\":\"http://y\"\x7d]", none⟩,
        some "tok"⟩
      (some [⟨"a", "http://x"⟩, ⟨"b", "http://y"⟩]) "tok" [] none rfl (by decide) (by decide)
      rfl with
    | ⟨w, h, hc, hr, hok⟩ =>
      ⟨w, h, hc, hr.trans (by decide), (hok (some [⟨"a", "a"⟩, ⟨"b", "aa"⟩]) (by decide)
        ("[\x7b\"correlation_id\":\"a\",\"short_url\":\"a\"\x7d," ++
          "\x7b\"correlation_id\":\"b\",\"short_url\":\"aa\"\x7d]\n") (by decide)).1⟩⟩

/-- C7. On a request whose body has length zero, `SaveBatch` answers with `http.Error`,
message "empty request" and status 400, and calls no repository operation: the call log is
empty and the backend state is the one it started from. -/
theorem SaveBatch_rejects_empty_body (json : JSONCodec) (repository : URLRepository σ)
    (request : Request) (s : σ) (writeErr : Option GoError)
    (hread : request.body.err = none) (hlen : request.body.data.utf8ByteSize = 0) :
    ∃ w, SaveBatch json repository request (World.init s writeErr) = some ((), w) ∧
      w.effects = [WEffect.error "empty request" 400] ∧
      responseStatus w.effects = some 400 ∧ isClientError 400 = true ∧
      w.calls = [] ∧ w.repo = s := by
  refine ⟨_, SaveBatch_empty_run json repository request _ hread hlen, ?_, ?_, by decide,
    ?_, ?_⟩ <;>
    simp [World.init, World.wrote, StatusBadRequest, responseStatus]

/-- Witness of C7: an empty body, here even without an owner token in the context. -/
theorem SaveBatch_rejects_empty_body_witness :
    (⟨"/api/shorten/batch", ⟨"", none⟩, none⟩ : Request).body.err = none ∧
    (⟨"/api/shorten/batch", ⟨"", none⟩, none⟩ : Request).body.data.utf8ByteSize = 0 ∧
    ∃ w, SaveBatch toyJSON memRepository ⟨"/api/shorten/batch", ⟨"", none⟩, none⟩
        (World.init [⟨"a", "http://x", "tok"⟩] none) = some ((), w) ∧
      w.effects = [WEffect.error "empty request" 400] ∧
      responseStatus w.effects = some 400 ∧ isClientError 400 = true ∧
      w.calls = [] ∧ w.repo = [⟨"a", "http://x", "tok"⟩] :=
  ⟨rfl, by decide,
    SaveBatch_rejects_empty_body toyJSON memRepository
      ⟨"/api/shorten/batch", ⟨"", none⟩, none⟩ [⟨"a", "http://x", "tok"⟩] none rfl
      (by decide)⟩

/-- C8. Under owner token `t`, `GetForUser` calls `GetByUser t` once. An empty or nil
result without error is answered with status 204, which is not a failure status; a failure
is answered with status 500; a non-empty result is answered with status 200 and the JSON
encoding of exactly the returned entries. The three statuses are pairwise different. -/
theorem GetForUser_empty_failure_nonempty (json : JSONCodec) (repository : URLRepository σ)
    (request : Request) (t : String) (s : σ) (writeErr : Option GoError)
    (htok : request.ctxToken = some t) :
    ∃ w, GetForUser json repository request (World.init s writeErr) = some ((), w) ∧
      w.calls = [RepoCall.GetByUser t] ∧
      (∀ items, (repository.GetByUser t s).1 = (items, none) → items.len = 0 →
        w.effects = [WEffect.error "" 204] ∧ responseStatus w.effects = some 204 ∧
        isClientError 204 = false ∧ isServerError 204 = false) ∧
      (∀ items e, (repository.GetByUser t s).1 = (items, some e) →
        w.effects = [WEffect.error e.Error 500] ∧ responseStatus w.effects = some 500) ∧
      (∀ items, (repository.GetByUser t s).1 = (items, none) → items.len ≠ 0 →
        ∀ buf, json.encodeUser items = (buf, none) →
          w.effects = okEffects 200 buf ++ afterWrite writeErr ∧
          responseStatus w.effects = some 200) ∧
      StatusNoContent ≠ StatusInternalServerError ∧ StatusNoContent ≠ StatusOK ∧
      StatusOK ≠ StatusInternalServerError := by
  refine ⟨_, GetForUser_run json repository request t _ htok, ?_, ?_, ?_, ?_, by decide,
    by decide, by decide⟩
  · simp [World.init]
  · intro items hres hlen
    refine ⟨?_, ?_, by decide, by decide⟩ <;>
      simp [World.init, hres, hlen, StatusNoContent, responseStatus]
  · intro items e hres
    simp [World.init, hres, StatusInternalServerError, responseStatus]
  · intro items hres hlen buf hbuf
    refine ⟨by simp [World.init, hres, hlen, hbuf, StatusOK], ?_⟩
    simp only [World.init, hres, hlen, hbuf, List.nil_append, if_false]
    exact responseStatus_okEffects _ _ _

/-- Witness of C8: a token without entries (nil result, 204), the unreachable backend (500)
and a token with one entry (200 with that entry encoded). -/
theorem GetForUser_empty_failure_nonempty_witness :
    (memRepository.GetByUser "tok" []).1 = (none, none) ∧
    (brokenRepository.GetByUser "tok" ()).1 = (none, some storageUnavailable) ∧
    (memRepository.GetByUser "tok" [⟨"a", "http://x", "tok"⟩]).1
      = (some [⟨"a", "http://x"⟩], none) ∧
    (∃ w, GetForUser toyJSON memRepository ⟨"/api/user/urls", ⟨"", none⟩, some "tok"⟩
        (World.init [] none) = some ((), w) ∧
      w.calls = [RepoCall.GetByUser "tok"] ∧ w.effects = [WEffect.error "" 204]) ∧
    (∃ w, GetForUser toyJSON brokenRepository ⟨"/api/user/urls", ⟨"", none⟩, some "tok"⟩
        (World.init () none) = some ((), w) ∧
      w.calls = [RepoCall.GetByUser "tok"] ∧
      w.effects = [WEffect.error "storage unavailable" 500]) ∧
    (∃ w, GetForUser toyJSON memRepository ⟨"/api/user/urls", ⟨"", none⟩, some "tok"⟩
        (World.init [⟨"a", "http://x", "tok"⟩] none) = some ((), w) ∧
      w.calls = [RepoCall.GetByUser "tok"] ∧
      w.effects = okEffects 200
        "[\x7b\"short_url\":\"a\",\"original_url\":\"http://x\"\x7d]\n" ++ afterWrite none) :=
  ⟨by decide, by decide, by decide,
    match GetForUser_empty_failure_nonempty toyJSON memRepository
      ⟨"/api/user/urls", ⟨"", none⟩, some "tok"⟩ "tok" [] none rfl with
    | ⟨w, h, hc, hempty, _⟩ => ⟨w, h, hc, (hempty none (by decide) (by decide)).1⟩,
    match GetForUser_empty_failure_nonempty toyJSON brokenRepository
      ⟨"/api/user/urls", ⟨"", none⟩, some "tok"⟩ "tok" () none rfl with
    | ⟨w, h, hc, _, hfail, _⟩ => ⟨w, h, hc, (hfail none storageUnavailable (by decide)).1⟩,
    match GetForUser_empty_failure_nonempty toyJSON memRepository
      ⟨"/api/user/urls", ⟨"", none⟩, some "tok"⟩ "tok" [⟨"a", "http://x", "tok"⟩] none rfl with
    | ⟨w, h, hc, _, _, hfull, _⟩ =>
      ⟨w, h, hc, (hfull (some [⟨"a", "http://x"⟩]) (by decide) (by decide)
        "[\x7b\"short_url\":\"a\",\"original_url\":\"http://x\"\x7d]\n" (by decide)).1⟩⟩

/-- C9. `GetDBStatus` calls `PingDB` exactly once and makes exactly one writer call,
`WriteHeader`: with status 200 if and only if `PingDB` returned true, with status 500
otherwise. It writes no body and calls `http.Error` nowhere. -/
theorem GetDBStatus_reports_PingDB (repository : URLRepository σ) (request : Request)
    (s : σ) (writeErr : Option GoError) :
    ∃ w, GetDBStatus repository request (World.init s writeErr) = some ((), w) ∧
      w.calls = [RepoCall.PingDB] ∧
      w.effects = [WEffect.writeHeader (if (repository.PingDB s).1 = true then 200 else 500)] ∧
      (responseStatus w.effects = some 200 ↔ (repository.PingDB s).1 = true) ∧
      (responseStatus w.effects = some 500 ↔ (repository.PingDB s).1 = false) ∧
      hasWrite w.effects = false ∧ hasError w.effects = false := by
  refine ⟨_, GetDBStatus_run repository request _, ?_, ?_, ?_, ?_, ?_, ?_⟩ <;>
    rcases h : (repository.PingDB s).1 <;>
    simp [World.init, World.called, World.wrote, h, StatusOK, StatusInternalServerError,
      responseStatus, hasWrite, hasError]

/-- C10, counterexample. For the paths "/" and "" `GetURL` calls `Find` with the empty
string. -/
theorem GetURL_calls_Find_with_empty_id :
    (∃ w, GetURL memRepository ⟨"/", ⟨"", none⟩, none⟩ (World.init [] none) = some ((), w) ∧
      w.calls = [RepoCall.Find ""]) ∧
    (∃ w, GetURL memRepository ⟨"", ⟨"", none⟩, none⟩ (World.init [] none) = some ((), w) ∧
      w.calls = [RepoCall.Find ""]) :=
  ⟨⟨_, rfl, by decide⟩, ⟨_, rfl, by decide⟩⟩

/-- C10, amended. `GetURL` calls `Find` once, with the request path less one leading "/";
that identifier is empty exactly for the paths "/" and "", and non-empty for every other
path. -/
theorem GetURL_Find_argument (repository : URLRepository σ) (request : Request) (s : σ)
    (writeErr : Option GoError) :
    ∃ w id, GetURL repository request (World.init s writeErr) = some ((), w) ∧
      w.calls = [RepoCall.Find id] ∧ id = TrimPrefix request.path "/" ∧
      (id = "" ↔ request.path = "/" ∨ request.path = "") := by
  refine ⟨_, _, GetURL_run repository request _, ?_, rfl, TrimPrefix_slash_eq_empty _⟩
  simp [World.init, World.called, World.wrote]

end claims

end Handlers
